import Mathlib

set_option autoImplicit false

/-!
Verification of the biostructmap core (`structmap.py`) against its
specification.  Python dicts are modelled as association lists whose keys
are looked up front-to-back; dict insertion replaces the first occurrence
of a key in place and appends fresh keys at the end, matching CPython
semantics for dicts with unique keys.  External collaborators
(`pdbtools`, `seqtools`, `gentests`, Bio.PDB) are modelled as function
parameters, since only their call sites live in `structmap.py`.
-/

namespace Structmap

/-- Lookup in a Python-dict model: first binding of the key wins. -/
def alookup {κ β : Type} [DecidableEq κ] : List (κ × β) → κ → Option β
  | [], _ => none
  | (k, v) :: t, a => if k = a then some v else alookup t a

/-- Python dict insertion `d[k] = v`: overwrite the binding of `k` in
place if present, otherwise append the new binding at the end. -/
def dictInsert {κ β : Type} [DecidableEq κ] : List (κ × β) → κ → β → List (κ × β)
  | [], k, v => [(k, v)]
  | (k', w) :: t, k, v =>
      if k' = k then (k, v) :: t else (k', w) :: dictInsert t k v

theorem alookup_dictInsert {κ β : Type} [DecidableEq κ]
    (d : List (κ × β)) (k a : κ) (v : β) :
    alookup (dictInsert d k v) a = if k = a then some v else alookup d a := by
  induction d with
  | nil => simp [dictInsert, alookup]
  | cons p t ih =>
      obtain ⟨k', w⟩ := p
      by_cases hk : k' = k
      · subst hk
        by_cases ha : k' = a <;> simp [dictInsert, alookup, ha]
      · by_cases ha : k' = a
        · subst ha
          have : ¬ k = k' := fun h => hk h.symm
          simp [dictInsert, alookup, hk, this]
        · simp [dictInsert, alookup, hk, ha, ih]

theorem alookup_mem {κ β : Type} [DecidableEq κ]
    {l : List (κ × β)} {a : κ} {b : β} (h : alookup l a = some b) : (a, b) ∈ l := by
  induction l with
  | nil => simp [alookup] at h
  | cons p t ih =>
      obtain ⟨k, v⟩ := p
      by_cases hk : k = a
      · subst hk
        simp [alookup] at h
        simp [h]
      · simp [alookup, hk] at h
        exact List.mem_cons_of_mem _ (ih h)

theorem mem_alookup {κ β : Type} [DecidableEq κ]
    {l : List (κ × β)} {a : κ} {b : β}
    (hnd : (l.map Prod.fst).Nodup) (h : (a, b) ∈ l) : alookup l a = some b := by
  induction l with
  | nil => simp at h
  | cons p t ih =>
      obtain ⟨k, v⟩ := p
      rw [List.map_cons, List.nodup_cons] at hnd
      rcases List.mem_cons.mp h with h1 | h1
      · cases h1
        simp [alookup]
      · have hka : k ≠ a := by
          intro hk
          subst hk
          exact hnd.1 (List.mem_map.mpr ⟨(k, b), h1, rfl⟩)
        simp [alookup, hka, ih hnd.2 h1]

theorem alookup_none_of_not_mem_keys {κ β : Type} [DecidableEq κ]
    {l : List (κ × β)} {a : κ} (h : a ∉ l.map Prod.fst) : alookup l a = none := by
  induction l with
  | nil => rfl
  | cons p t ih =>
      obtain ⟨k, v⟩ := p
      rw [List.map_cons, List.mem_cons] at h
      push_neg at h
      have hka : k ≠ a := Ne.symm h.1
      simp [alookup, hka, ih h.2]

/-! ### C1 — the composed structure-number → reference map (structmap.py 331-332)

`pdbnum_to_ref = {seq_index_to_pdb_numb[x]: pdbindex_to_ref[x]
                  for x in pdbindex_to_ref if x in seq_index_to_pdb_numb}`

The comprehension iterates the entries of `pdbindex_to_ref` in order,
keeps those whose key is also a key of `seq_index_to_pdb_numb`, and
inserts into a fresh dict. -/

/-- The composed map built by `Chain.map` (and `Chain.write_to_residue`):
structural residue number → reference value, over the intersection of the
two legs' domains. -/
def pdbnum_to_ref {β : Type} (seq_index_to_pdb_numb : List (Nat × Nat))
    (pdbindex_to_ref : List (Nat × β)) : List (Nat × β) :=
  pdbindex_to_ref.foldl (fun acc p =>
    match alookup seq_index_to_pdb_numb p.1 with
    | some s => dictInsert acc s p.2
    | none => acc) []

theorem pdbnum_to_ref_sound {β : Type} (leg1 : List (Nat × Nat))
    (leg2 : List (Nat × β)) :
    ∀ (acc : List (Nat × β)) (s : Nat) (r : β),
      alookup (leg2.foldl (fun acc p =>
        match alookup leg1 p.1 with
        | some s => dictInsert acc s p.2
        | none => acc) acc) s = some r →
      alookup acc s = some r ∨ ∃ p ∈ leg2, alookup leg1 p.1 = some s ∧ p.2 = r := by
  induction leg2 with
  | nil =>
      intro acc s r h
      exact Or.inl h
  | cons q t ih =>
      intro acc s r h
      simp only [List.foldl_cons] at h
      rcases hq : alookup leg1 q.1 with _ | s'
      · rw [hq] at h
        rcases ih acc s r h with h1 | ⟨p, hp, h2, h3⟩
        · exact Or.inl h1
        · exact Or.inr ⟨p, List.mem_cons_of_mem _ hp, h2, h3⟩
      · rw [hq] at h
        rcases ih (dictInsert acc s' q.2) s r h with h1 | ⟨p, hp, h2, h3⟩
        · rw [alookup_dictInsert] at h1
          by_cases hs : s' = s
          · subst hs
            simp at h1
            exact Or.inr ⟨q, List.mem_cons_self _ _, hq, h1⟩
          · simp [hs] at h1
            exact Or.inl h1
        · exact Or.inr ⟨p, List.mem_cons_of_mem _ hp, h2, h3⟩

theorem pdbnum_to_ref_frame {β : Type} (leg1 : List (Nat × Nat))
    (leg2 : List (Nat × β)) :
    ∀ (acc : List (Nat × β)) (s : Nat) (r : β),
      alookup acc s = some r →
      (∀ p ∈ leg2, alookup leg1 p.1 ≠ some s) →
      alookup (leg2.foldl (fun acc p =>
        match alookup leg1 p.1 with
        | some s => dictInsert acc s p.2
        | none => acc) acc) s = some r := by
  induction leg2 with
  | nil =>
      intro acc s r h _
      exact h
  | cons q t ih =>
      intro acc s r h hnone
      simp only [List.foldl_cons]
      rcases hq : alookup leg1 q.1 with _ | s'
      · exact ih acc s r h (fun p hp => hnone p (List.mem_cons_of_mem _ hp))
      · have hs : s' ≠ s := by
          intro hcontra
          exact hnone q (List.mem_cons_self _ _) (hcontra ▸ hq)
        refine ih _ s r ?_ (fun p hp => hnone p (List.mem_cons_of_mem _ hp))
        rw [alookup_dictInsert]
        simp [hs, h]

theorem pdbnum_to_ref_complete {β : Type} (leg1 : List (Nat × Nat))
    (hinj : ∀ i j s, alookup leg1 i = some s → alookup leg1 j = some s → i = j) :
    ∀ (leg2 : List (Nat × β)), (leg2.map Prod.fst).Nodup →
    ∀ (acc : List (Nat × β)) (i s : Nat) (r : β),
      (i, r) ∈ leg2 → alookup leg1 i = some s →
      alookup (leg2.foldl (fun acc p =>
        match alookup leg1 p.1 with
        | some s => dictInsert acc s p.2
        | none => acc) acc) s = some r := by
  intro leg2
  induction leg2 with
  | nil =>
      intro _ acc i s r h _
      simp at h
  | cons q t ih =>
      intro hk2 acc i s r hmem hleg1
      obtain ⟨j, v⟩ := q
      simp only [List.map_cons, List.nodup_cons] at hk2
      rcases List.mem_cons.mp hmem with h1 | h1
      · rw [Prod.mk.injEq] at h1
        obtain ⟨hji, hvr⟩ := h1
        subst hji
        subst hvr
        simp only [List.foldl_cons, hleg1]
        refine pdbnum_to_ref_frame leg1 t _ s r ?_ ?_
        · rw [alookup_dictInsert]
          simp
        · intro p hp hcontra
          have hpi : p.1 = i := hinj p.1 i s hcontra hleg1
          exact hk2.1 (hpi ▸ List.mem_map_of_mem Prod.fst hp)
      · simp only [List.foldl_cons]
        rcases hq : alookup leg1 j with _ | s' <;>
          simp only [hq] <;> exact ih hk2.2 _ i s r h1 hleg1

/-- C1: In `Chain.map`, the composed mapping from structural residue number
to reference index is defined exactly on the intersection of the two legs'
domains: every sequence index `i` present in both legs contributes the
binding `leg1 i ↦ leg2 i`, and every binding of the composed map arises
from such an `i`.  The two legs are Python dicts (distinct keys), and the
sequence-index → structure-number leg is injective (distinct residues have
distinct structural numbers). -/
theorem chain_map_composition_intersection {β : Type} (leg1 : List (Nat × Nat))
    (leg2 : List (Nat × β))
    (hinj : ∀ i j s, alookup leg1 i = some s → alookup leg1 j = some s → i = j)
    (hk2 : (leg2.map Prod.fst).Nodup) :
    (∀ i s r, alookup leg1 i = some s → alookup leg2 i = some r →
      alookup (pdbnum_to_ref leg1 leg2) s = some r) ∧
    (∀ s r, alookup (pdbnum_to_ref leg1 leg2) s = some r →
      ∃ i, alookup leg1 i = some s ∧ alookup leg2 i = some r) := by
  constructor
  · intro i s r h1 h2
    exact pdbnum_to_ref_complete leg1 hinj leg2 hk2 [] i s r (alookup_mem h2) h1
  · intro s r h
    rcases pdbnum_to_ref_sound leg1 leg2 [] s r h with h1 | ⟨p, hp, h2, h3⟩
    · simp [alookup] at h1
    · exact ⟨p.1, h2, h3 ▸ mem_alookup hk2 hp⟩

theorem chain_map_composition_intersection_witness :
    alookup (pdbnum_to_ref [(1, 100), (2, 200)] [(1, 7), (3, 9)]) 100 = some 7 ∧
    ∃ i, alookup [(1, 100), (2, 200)] i = some 100 ∧
      alookup [(1, 7), (3, 9)] i = some 7 := by
  have hinj : ∀ i j s, alookup [(1, 100), (2, 200)] i = some s →
      alookup [(1, 100), (2, 200)] j = some s → i = j := by
    intro i j s h1 h2
    simp only [alookup] at h1 h2
    split_ifs at h1 h2 <;> simp_all <;> omega
  have h := chain_map_composition_intersection (β := Nat)
    [(1, 100), (2, 200)] [(1, 7), (3, 9)] hinj (by decide)
  have hfst := h.1 1 100 7 (by decide) (by decide)
  exact ⟨hfst, h.2 100 7 hfst⟩

/-! ### C2 — `Chain.nearby` memoization (structmap.py 213-227)

`Chain.__init__` sets `self._nearby = {}`.  `nearby` looks up
`param_key = (radius, atom)` in the cache, calls `pdbtools.nearby` (an
external collaborator, modelled as the parameter `compute`) only on a
miss, stores the result, and returns the cached entry.  The returned
`Bool` records whether the underlying computation ran on this call. -/

/-- `Chain.nearby` as a state-passing function on the `_nearby` cache.
Returns (result, updated cache, whether `pdbtools.nearby` ran). -/
def Chain.nearby {κ D : Type} [DecidableEq κ] (compute : κ → D)
    (cache : List (κ × D)) (param_key : κ) : D × List (κ × D) × Bool :=
  match alookup cache param_key with
  | some d => (d, cache, false)
  | none =>
      let d := compute param_key
      (d, dictInsert cache param_key d, true)

/-- Number of times the underlying neighbor computation runs for key `p`
while serving the query sequence `qs` against an evolving cache. -/
def nearbyComputeCount {κ D : Type} [DecidableEq κ] (compute : κ → D) :
    List (κ × D) → List κ → κ → Nat
  | _, [], _ => 0
  | cache, k :: t, p =>
      (if k = p ∧ (Chain.nearby compute cache k).2.2 = true then 1 else 0) +
        nearbyComputeCount compute (Chain.nearby compute cache k).2.1 t p

theorem nearby_hit {κ D : Type} [DecidableEq κ] (compute : κ → D)
    (cache : List (κ × D)) (k : κ) (d : D) (h : alookup cache k = some d) :
    Chain.nearby compute cache k = (d, cache, false) := by
  simp [Chain.nearby, h]

theorem nearby_lookup_after {κ D : Type} [DecidableEq κ] (compute : κ → D)
    (cache : List (κ × D)) (k : κ) :
    alookup (Chain.nearby compute cache k).2.1 k =
      some (Chain.nearby compute cache k).1 := by
  rcases h : alookup cache k with _ | d
  · simp [Chain.nearby, h, alookup_dictInsert]
  · simp [Chain.nearby, h]

theorem nearbyComputeCount_le {κ D : Type} [DecidableEq κ] (compute : κ → D) :
    ∀ (qs : List κ) (cache : List (κ × D)) (p : κ),
      nearbyComputeCount compute cache qs p ≤
        (if (alookup cache p).isSome then 0 else 1) := by
  intro qs
  induction qs with
  | nil =>
      intro cache p
      simp [nearbyComputeCount]
  | cons k t ih =>
      intro cache p
      rcases h : alookup cache k with _ | d
      · by_cases hk : k = p
        · subst hk
          have hafter : (alookup (Chain.nearby compute cache k).2.1 k).isSome := by
            rw [nearby_lookup_after]
            rfl
          have hcount := ih (Chain.nearby compute cache k).2.1 k
          rw [if_pos hafter] at hcount
          simp only [nearbyComputeCount, h, Chain.nearby]
          simp only [Chain.nearby, h] at hcount
          simp [h, hcount, Nat.le_of_eq, Nat.eq_zero_of_le_zero hcount]
        · have hsame : alookup (Chain.nearby compute cache k).2.1 p = alookup cache p := by
            simp only [Chain.nearby, h]
            rw [alookup_dictInsert]
            simp [hk]
          have hcount := ih (Chain.nearby compute cache k).2.1 p
          rw [hsame] at hcount
          simpa [nearbyComputeCount, hk] using hcount
      · have hcount := ih (Chain.nearby compute cache k).2.1 p
        simp only [Chain.nearby, h] at hcount ⊢
        simpa [nearbyComputeCount, Chain.nearby, h] using hcount

/-- C2: `Chain.nearby` is memoized by the exact (radius, selector) pair:
a second call with identical parameters returns the same result and does
not rerun the neighbor computation, and over any sequence of calls served
from the freshly initialised empty cache the underlying computation runs
at most once per distinct (radius, selector) pair. -/
theorem nearby_memoized {D : Type} (compute : Nat × String → D) :
    (∀ (cache : List ((Nat × String) × D)) (radius : Nat) (selector : String),
      (Chain.nearby compute
        ((Chain.nearby compute cache (radius, selector)).2.1)
        (radius, selector)).1 =
        (Chain.nearby compute cache (radius, selector)).1 ∧
      (Chain.nearby compute
        ((Chain.nearby compute cache (radius, selector)).2.1)
        (radius, selector)).2.2 = false) ∧
    (∀ (qs : List (Nat × String)) (radius : Nat) (selector : String),
      nearbyComputeCount compute [] qs (radius, selector) ≤ 1) := by
  constructor
  · intro cache radius selector
    have h := nearby_lookup_after compute cache (radius, selector)
    rw [nearby_hit compute _ _ _ h]
    exact ⟨rfl, rfl⟩
  · intro qs radius selector
    have h := nearbyComputeCount_le compute qs [] (radius, selector)
    simpa [alookup] using h

/-! ### C3 / C5 — `SequenceAlignment.tajimas_d` (structmap.py 424-486)

The collaborators `align_protein_to_dna` (seqtools), `_construct_sub_align`
(seqtools) and `gentests.tajimas_d` are external and appear as function
parameters.  `gentests.tajimas_d` returns a single value when `window` is
`None` and a midpoint-keyed dict otherwise; the two shapes are modelled by
two parameters.  Python exceptions are modelled with `Except String`. -/

/-- A codon: the three genomic positions encoding one protein position. -/
abbrev Codon := Nat × Nat × Nat

/-- `sorted(d)` on a Python dict iterates its keys in ascending order. -/
def sortedKeys {β : Type} (d : List (Nat × β)) : List Nat :=
  (d.map Prod.fst).insertionSort (· ≤ ·)

/-- `codons = [prot_to_genome[x] for x in sorted(prot_to_genome)]` -/
def codonsOf (prot_to_genome : List (Nat × Codon)) : List Codon :=
  (sortedKeys prot_to_genome).filterMap (alookup prot_to_genome)

/-- `codon_list = [x for sublist in codons for x in sublist]` -/
def codonList (codons : List Codon) : List Nat :=
  codons.flatMap (fun c => [c.1, c.2.1, c.2.2])

/-- `tajd_ref_to_genome = {codon_list[int(x) - 1]: tajd[x] for x in tajd}`;
an out-of-range window midpoint is Python's IndexError. -/
def tajd_ref_to_genome (codon_list : List Nat) :
    List (Nat × Int) → List (Nat × Int) → Except String (List (Nat × Int))
  | [], acc => Except.ok acc
  | (x, v) :: t, acc =>
      match codon_list[x - 1]? with
      | some g => tajd_ref_to_genome codon_list t (dictInsert acc g v)
      | none => Except.error "IndexError"

/-- `genome_to_prot = {i: x for x in prot_to_genome for i in prot_to_genome[x]}` -/
def genome_to_prot (prot_to_genome : List (Nat × Codon)) : List (Nat × Nat) :=
  prot_to_genome.foldl (fun acc p =>
    dictInsert (dictInsert (dictInsert acc p.2.1 p.1) p.2.2.1 p.1) p.2.2.2 p.1) []

/-- `tajd_ref_to_protein = [(genome_to_prot[x], tajd_ref_to_genome[x])
                            for x in tajd_ref_to_genome]` (a list of pairs,
not a dict); a genomic key absent from `genome_to_prot` is Python's
KeyError. -/
def tajd_ref_to_protein (gtp : List (Nat × Nat)) :
    List (Nat × Int) → Except String (List (Nat × Int))
  | [] => Except.ok []
  | (g, v) :: t =>
      match alookup gtp g with
      | some p => (tajd_ref_to_protein gtp t).map (fun r => (p, v) :: r)
      | none => Except.error "KeyError"

/-- The shapes a `tajimas_d` call can return. -/
inductive TajdResult : Type
  | whole (v : Int)
  | raw (m : List (Nat × Int))
  | genome (m : List (Nat × Int))
  | genomeAndProtein (g : List (Nat × Int)) (p : List (Nat × Int))
  deriving DecidableEq

/-- `SequenceAlignment.tajimas_d` (structmap.py 424-486), with the external
collaborators as parameters and `A` the opaque alignment type.  `self` is
the alignment held by the object. -/
def SequenceAlignment.tajimas_d {A : Type}
    (align_protein_to_dna : String → String → List (Nat × Codon))
    (construct_sub_align : A → List Codon → A)
    (gentests_windowed : A → Nat → Nat → List (Nat × Int))
    (gentests_whole : A → Int)
    (self : A) (window : Option Nat) (step : Nat)
    (protein_ref genome_ref : Option String)
    (output_protein_num : Bool) : Except String TajdResult :=
  match genome_ref, protein_ref with
  | some g, some p =>
      let prot_to_genome := align_protein_to_dna p g
      let codons := codonsOf prot_to_genome
      let alignment := construct_sub_align self codons
      match window with
      | none => Except.ok (TajdResult.whole (gentests_whole alignment))
      | some w =>
          let tajd := gentests_windowed alignment w step
          let codon_list := codonList codons
          match tajd_ref_to_genome codon_list tajd [] with
          | Except.error e => Except.error e
          | Except.ok trg =>
              match tajd_ref_to_protein (genome_to_prot prot_to_genome) trg with
              | Except.error e => Except.error e
              | Except.ok trp =>
                  if output_protein_num then
                    Except.ok (TajdResult.genomeAndProtein trg trp)
                  else
                    Except.ok (TajdResult.genome trg)
  | none, none =>
      match window with
      | none => Except.ok (TajdResult.whole (gentests_whole self))
      | some w => Except.ok (TajdResult.raw (gentests_windowed self w step))
  | some _, none => Except.error "Missing protein_ref assignment"
  | none, some _ => Except.error "Missing genome_ref assignment"

theorem mem_dictInsert_elim {κ β : Type} [DecidableEq κ]
    {d : List (κ × β)} {k : κ} {v : β} {p : κ × β}
    (h : p ∈ dictInsert d k v) : p ∈ d ∨ p = (k, v) := by
  induction d with
  | nil =>
      right
      simpa [dictInsert] using h
  | cons q t ih =>
      obtain ⟨k', w⟩ := q
      by_cases hk : k' = k
      · subst hk
        simp only [dictInsert, if_pos rfl] at h
        rcases List.mem_cons.mp h with h1 | h1
        · exact Or.inr h1
        · exact Or.inl (List.mem_cons_of_mem _ h1)
      · simp only [dictInsert, if_neg hk] at h
        rcases List.mem_cons.mp h with h1 | h1
        · exact Or.inl (h1 ▸ List.mem_cons_self _ _)
        · rcases ih h1 with h2 | h2
          · exact Or.inl (List.mem_cons_of_mem _ h2)
          · exact Or.inr h2

theorem tajd_ref_to_genome_keys (cl : List Nat) :
    ∀ (tajd acc trg : List (Nat × Int)),
      tajd_ref_to_genome cl tajd acc = Except.ok trg →
      ∀ p ∈ trg, p ∈ acc ∨ p.1 ∈ cl := by
  intro tajd
  induction tajd with
  | nil =>
      intro acc trg h p hp
      simp only [tajd_ref_to_genome, Except.ok.injEq] at h
      exact Or.inl (h ▸ hp)
  | cons q t ih =>
      intro acc trg h p hp
      obtain ⟨x, v⟩ := q
      rcases hg : cl[x - 1]? with _ | g
      · simp only [tajd_ref_to_genome, hg] at h
        exact Except.noConfusion h
      · simp only [tajd_ref_to_genome, hg] at h
        rcases ih (dictInsert acc g v) trg h p hp with h1 | h1
        · rcases mem_dictInsert_elim h1 with h2 | h2
          · exact Or.inl h2
          · right
            rw [h2]
            exact List.getElem?_mem hg
        · exact Or.inr h1

theorem tajd_ref_to_genome_error_shape (cl : List Nat) :
    ∀ (tajd acc : List (Nat × Int)) (e : String),
      tajd_ref_to_genome cl tajd acc = Except.error e → e = "IndexError" := by
  intro tajd
  induction tajd with
  | nil =>
      intro acc e h
      simp [tajd_ref_to_genome] at h
  | cons q t ih =>
      intro acc e h
      obtain ⟨x, v⟩ := q
      rcases hg : cl[x - 1]? with _ | g
      · simp only [tajd_ref_to_genome, hg, Except.error.injEq] at h
        exact h.symm
      · simp only [tajd_ref_to_genome, hg] at h
        exact ih _ e h

theorem tajd_ref_to_protein_keys (gtp : List (Nat × Nat)) :
    ∀ (l trp : List (Nat × Int)),
      tajd_ref_to_protein gtp l = Except.ok trp →
      ∀ p ∈ trp, ∃ g, alookup gtp g = some p.1 := by
  intro l
  induction l with
  | nil =>
      intro trp h p hp
      simp only [tajd_ref_to_protein, Except.ok.injEq] at h
      rw [← h] at hp
      simp at hp
  | cons q t ih =>
      intro trp h p hp
      obtain ⟨g, v⟩ := q
      rcases hl : alookup gtp g with _ | pr
      · simp only [tajd_ref_to_protein, hl] at h
        exact Except.noConfusion h
      · simp only [tajd_ref_to_protein, hl] at h
        rcases htr : tajd_ref_to_protein gtp t with e | r <;> rw [htr] at h
        · simp [Except.map] at h
        · simp only [Except.map, Except.ok.injEq] at h
          rw [← h] at hp
          rcases List.mem_cons.mp hp with h1 | h1
          · exact ⟨g, by rw [h1]; exact hl⟩
          · exact ih r htr p h1

theorem tajd_ref_to_protein_error_shape (gtp : List (Nat × Nat)) :
    ∀ (l : List (Nat × Int)) (e : String),
      tajd_ref_to_protein gtp l = Except.error e → e = "KeyError" := by
  intro l
  induction l with
  | nil =>
      intro e h
      simp [tajd_ref_to_protein] at h
  | cons q t ih =>
      intro e h
      obtain ⟨g, v⟩ := q
      rcases hl : alookup gtp g with _ | pr
      · simp only [tajd_ref_to_protein, hl, Except.error.injEq] at h
        exact h.symm
      · simp only [tajd_ref_to_protein, hl] at h
        rcases htr : tajd_ref_to_protein gtp t with e' | r <;> rw [htr] at h
        · simp only [Except.map, Except.error.injEq] at h
          exact h ▸ ih e' htr
        · simp [Except.map] at h

theorem genome_to_prot_values :
    ∀ (ptg : List (Nat × Codon)) (acc : List (Nat × Nat)) (p : Nat × Nat),
      p ∈ ptg.foldl (fun acc q =>
        dictInsert (dictInsert (dictInsert acc q.2.1 q.1) q.2.2.1 q.1) q.2.2.2 q.1) acc →
      p ∈ acc ∨ p.2 ∈ ptg.map Prod.fst := by
  intro ptg
  induction ptg with
  | nil =>
      intro acc p h
      exact Or.inl h
  | cons q t ih =>
      intro acc p h
      simp only [List.foldl_cons] at h
      rcases ih _ p h with h1 | h1
      · rcases mem_dictInsert_elim h1 with h2 | h2
        · rcases mem_dictInsert_elim h2 with h3 | h3
          · rcases mem_dictInsert_elim h3 with h4 | h4
            · exact Or.inl h4
            · right
              rw [h4]
              simp
          · right
            rw [h3]
            simp
        · right
          rw [h2]
          simp
      · right
        simp [h1]

theorem genome_to_prot_value_mem {ptg : List (Nat × Codon)} {i x : Nat}
    (h : alookup (genome_to_prot ptg) i = some x) : x ∈ ptg.map Prod.fst := by
  rcases genome_to_prot_values ptg [] (i, x) (alookup_mem h) with h1 | h1
  · simp at h1
  · exact h1

/-- C3 counterexample: with `window` set, both references supplied and the
default `output_protein_num = False`, the call returns a result keyed by
the *genomic* index 11 — not by the protein reference index (the only
protein index of the codon map is 1) — and produces no secondary output
at all. -/
theorem tajimas_d_keying_counterexample :
    SequenceAlignment.tajimas_d (A := Unit)
      (fun _ _ => [(1, (10, 11, 12))]) (fun a _ => a)
      (fun _ _ _ => [(2, 5)]) (fun _ => 0)
      () (some 3) 3 (some "M") (some "ATGCCC") false =
      Except.ok (TajdResult.genome [(11, 5)]) ∧
    (11 : Nat) ∉ ([(1, ((10 : Nat), (11 : Nat), (12 : Nat)))].map Prod.fst) := by
  constructor
  · rfl
  · decide

/-- C3 (amended): when `tajimas_d` is called with a window and both
references, the primary result is keyed by *genomic* index (window
midpoints translated through the flattened codon list); a protein-indexed
keying (obtained by inverting the codon map) is produced as the *secondary*
component of the output, and only when `output_protein_num` is true. -/
theorem tajimas_d_genome_primary {A : Type}
    (apd : String → String → List (Nat × Codon))
    (csa : A → List Codon → A)
    (gw : A → Nat → Nat → List (Nat × Int))
    (gwh : A → Int)
    (self : A) (w step : Nat) (p g : String)
    (trg trp : List (Nat × Int))
    (htrg : tajd_ref_to_genome (codonList (codonsOf (apd p g)))
        (gw (csa self (codonsOf (apd p g))) w step) [] = Except.ok trg)
    (htrp : tajd_ref_to_protein (genome_to_prot (apd p g)) trg = Except.ok trp) :
    SequenceAlignment.tajimas_d apd csa gw gwh self (some w) step
        (some p) (some g) false = Except.ok (TajdResult.genome trg) ∧
    SequenceAlignment.tajimas_d apd csa gw gwh self (some w) step
        (some p) (some g) true =
      Except.ok (TajdResult.genomeAndProtein trg trp) ∧
    (∀ q ∈ trg, q.1 ∈ codonList (codonsOf (apd p g))) ∧
    (∀ q ∈ trp, q.1 ∈ (apd p g).map Prod.fst) := by
  refine ⟨?_, ?_, ?_, ?_⟩
  · simp only [SequenceAlignment.tajimas_d, htrg, htrp]
    rfl
  · simp only [SequenceAlignment.tajimas_d, htrg, htrp]
    rfl
  · intro q hq
    rcases tajd_ref_to_genome_keys _ _ _ _ htrg q hq with h1 | h1
    · simp at h1
    · exact h1
  · intro q hq
    obtain ⟨gk, hgk⟩ := tajd_ref_to_protein_keys _ _ _ htrp q hq
    exact genome_to_prot_value_mem hgk

theorem tajimas_d_genome_primary_witness :
    SequenceAlignment.tajimas_d (A := Unit)
      (fun _ _ => [(1, (10, 11, 12))]) (fun a _ => a)
      (fun _ _ _ => [(2, 5)]) (fun _ => 0)
      () (some 3) 3 (some "M") (some "ATGCCC") true =
      Except.ok (TajdResult.genomeAndProtein [(11, 5)] [(1, 5)]) := by
  have h := tajimas_d_genome_primary (A := Unit)
    (fun _ _ => [(1, (10, 11, 12))]) (fun a _ => a)
    (fun _ _ _ => [(2, 5)]) (fun _ => 0)
    () 3 3 "M" "ATGCCC" [(11, 5)] [(1, 5)] (by rfl) (by rfl)
  exact h.2.1

/-- C5: `tajimas_d` raises a TypeError naming the missing argument exactly
when one of `protein_ref` / `genome_ref` is supplied without the other;
when both are supplied or both absent it never fails for that reason. -/
theorem tajimas_d_missing_ref_check {A : Type}
    (apd : String → String → List (Nat × Codon))
    (csa : A → List Codon → A)
    (gw : A → Nat → Nat → List (Nat × Int))
    (gwh : A → Int)
    (self : A) (window : Option Nat) (step : Nat) (opn : Bool) :
    (∀ p : String,
      SequenceAlignment.tajimas_d apd csa gw gwh self window step
        (some p) none opn = Except.error "Missing genome_ref assignment") ∧
    (∀ g : String,
      SequenceAlignment.tajimas_d apd csa gw gwh self window step
        none (some g) opn = Except.error "Missing protein_ref assignment") ∧
    (∃ r, SequenceAlignment.tajimas_d apd csa gw gwh self window step
        none none opn = Except.ok r) ∧
    (∀ (p g : String),
      SequenceAlignment.tajimas_d apd csa gw gwh self window step
          (some p) (some g) opn ≠ Except.error "Missing genome_ref assignment" ∧
      SequenceAlignment.tajimas_d apd csa gw gwh self window step
          (some p) (some g) opn ≠ Except.error "Missing protein_ref assignment") := by
  refine ⟨fun p => rfl, fun g => rfl, ?_, ?_⟩
  · cases window <;> exact ⟨_, rfl⟩
  · intro p g
    cases window with
    | none => constructor <;> simp [SequenceAlignment.tajimas_d]
    | some w =>
        rcases htrg : tajd_ref_to_genome (codonList (codonsOf (apd p g)))
            (gw (csa self (codonsOf (apd p g))) w step) [] with e | trg
        · have he := tajd_ref_to_genome_error_shape _ _ _ _ htrg
          subst he
          constructor <;> simp [SequenceAlignment.tajimas_d, htrg]
        · rcases htrp : tajd_ref_to_protein (genome_to_prot (apd p g)) trg with e | trp
          · have he := tajd_ref_to_protein_error_shape _ _ _ htrp
            subst he
            constructor <;> simp [SequenceAlignment.tajimas_d, htrg, htrp]
          · cases opn <;>
              (constructor <;> simp [SequenceAlignment.tajimas_d, htrg, htrp])

theorem tajimas_d_missing_ref_check_witness :
    SequenceAlignment.tajimas_d (A := Unit)
      (fun _ _ => []) (fun a _ => a) (fun _ _ _ => []) (fun _ => 0)
      () none 3 (some "M") none false =
      Except.error "Missing genome_ref assignment" :=
  (tajimas_d_missing_ref_check (A := Unit)
    (fun _ _ => []) (fun a _ => a) (fun _ _ _ => []) (fun _ => 0)
    () none 3 false).1 "M"

/-! ### C4 / C6 / C7 — `Chain.map` (structmap.py 285-340)

The collaborators `match_pdb_residue_num_to_seq`, `pdbtools.nearby` (via
`Chain.nearby`), `blast_sequences`, `align_protein_to_dna` and
`pdbtools.map_function` are external and appear as function parameters.
`blast_sequences` yields reference residue numbers while
`align_protein_to_dna` yields codon triples, so reference values are a sum
type.  The embedding records the resolved reference, the alignment map
produced, the (possibly undispatched) method passed on to `map_function`,
and the per-residue results. -/

/-- Reference values: `blast_sequences` maps to reference residue numbers,
`align_protein_to_dna` to codon triples. -/
inductive RefVal : Type
  | protein (i : Nat)
  | codon (c : Codon)
  deriving DecidableEq

/-- The `methods` table at structmap.py 304-307. -/
inductive BuiltinFn : Type
  | defaultMapping
  | tajdMapping
  | snpMapping
  | aaScaleMapping
  deriving DecidableEq

/-- Lookup in the `methods` dict. -/
def methods (m : String) : Option BuiltinFn :=
  if m = "default" then some BuiltinFn.defaultMapping
  else if m = "tajimasd" then some BuiltinFn.tajdMapping
  else if m = "snps" then some BuiltinFn.snpMapping
  else if m = "aa_scale" then some BuiltinFn.aaScaleMapping
  else none

/-- What `Chain.map` passes to `pdbtools.map_function` as `method`: the
dispatched function when the name is in the table (`method = methods[method]`),
otherwise the argument unchanged. -/
inductive MethodArg : Type
  | fn (b : BuiltinFn)
  | name (s : String)
  deriving DecidableEq

/-- Observable outcome of a `Chain.map` call. -/
structure ChainMapResult (V : Type) : Type where
  refUsed : String
  pdbindexToRef : List (Nat × RefVal)
  pdbnumToRef : List (Nat × RefVal)
  methodArg : MethodArg
  results : List (Nat × V)
  params : Nat × String
  deriving DecidableEq

/-- `Chain.map` (structmap.py 285-340).  `sequence` is `self.sequence`,
`data` the supplied records (`data[0]` on an empty list is Python's
IndexError).  `nearby_fn` stands for `self.nearby(radius, atom=selector)`. -/
def Chain.map {V : Type}
    (match_pdb_residue_num_to_seq : String → List (Nat × Nat))
    (nearby_fn : Nat → String → List (Nat × List Nat))
    (blast_sequences : String → String → List (Nat × Nat) × Int)
    (align_protein_to_dna : String → String → List (Nat × Codon))
    (map_function : MethodArg → List String → List Nat → List (Nat × RefVal) → V)
    (sequence : String) (data : List String)
    (method : String) (ref : Option String) (radius : Nat) (selector : String) :
    Except String (ChainMapResult V) :=
  let seq_index_to_pdb_numb := match_pdb_residue_num_to_seq sequence
  let residue_map := nearby_fn radius selector
  let refGet : Except String String :=
    match ref with
    | some r => Except.ok r
    | none =>
        if method ≠ "tajimasd" then Except.ok sequence
        else
          match data with
          | [] => Except.error "IndexError"
          | d :: _ => Except.ok d
  match refGet with
  | Except.error e => Except.error e
  | Except.ok r =>
      let pdbindex_to_ref : List (Nat × RefVal) :=
        if method = "tajimasd" then
          (align_protein_to_dna sequence r).map (fun p => (p.1, RefVal.codon p.2))
        else
          ((blast_sequences sequence r).1).map (fun p => (p.1, RefVal.protein p.2))
      let marg : MethodArg :=
        match methods method with
        | some f => MethodArg.fn f
        | none => MethodArg.name method
      let composed := pdbnum_to_ref seq_index_to_pdb_numb pdbindex_to_ref
      let results := residue_map.map (fun q =>
        (q.1, map_function marg data q.2 composed))
      Except.ok
        { refUsed := r
          pdbindexToRef := pdbindex_to_ref
          pdbnumToRef := composed
          methodArg := marg
          results := results
          params := (radius, selector) }

/-- C4 counterexample: `"bogus"` is not a built-in method name, yet
`Chain.map` does not fail: it proceeds with the mapping and hands the raw
name through to `pdbtools.map_function`. -/
theorem chain_map_unknown_method_counterexample :
    methods "bogus" = none ∧
    Chain.map (V := Int) (fun _ => []) (fun _ _ => [(1, [1])])
      (fun _ _ => ([], 0)) (fun _ _ => []) (fun _ _ _ _ => 0)
      "MK" ["AAA"] "bogus" (some "MK") 15 "all" =
      Except.ok
        { refUsed := "MK"
          pdbindexToRef := []
          pdbnumToRef := []
          methodArg := MethodArg.name "bogus"
          results := [(1, 0)]
          params := (15, "all") } := by
  constructor <;> rfl

/-- C4 (amended): for a method name outside the built-in table,
`Chain.map` does not fail fast; whenever a reference is supplied it
proceeds with the full mapping and passes the unknown name unchanged to
the per-residue mapping function. -/
theorem chain_map_unknown_method_proceeds {V : Type}
    (match_fn : String → List (Nat × Nat))
    (nearby_fn : Nat → String → List (Nat × List Nat))
    (blast_fn : String → String → List (Nat × Nat) × Int)
    (apd : String → String → List (Nat × Codon))
    (map_function : MethodArg → List String → List Nat → List (Nat × RefVal) → V)
    (sequence : String) (data : List String) (method : String) (r : String)
    (radius : Nat) (selector : String)
    (hunknown : methods method = none) :
    ∃ res, Chain.map match_fn nearby_fn blast_fn apd map_function
        sequence data method (some r) radius selector = Except.ok res ∧
      res.methodArg = MethodArg.name method := by
  refine ⟨_, rfl, ?_⟩
  simp only [Chain.map, hunknown]

theorem chain_map_unknown_method_proceeds_witness :
    ∃ res, Chain.map (V := Int) (fun _ => []) (fun _ _ => [(1, [1])])
        (fun _ _ => ([], 0)) (fun _ _ => []) (fun _ _ _ _ => 0)
        "MK" ["AAA"] "mystery" (some "MK") 15 "all" = Except.ok res ∧
      res.methodArg = MethodArg.name "mystery" :=
  chain_map_unknown_method_proceeds (V := Int) (fun _ => []) (fun _ _ => [(1, [1])])
    (fun _ _ => ([], 0)) (fun _ _ => []) (fun _ _ _ _ => 0)
    "MK" ["AAA"] "mystery" "MK" 15 "all" (by rfl)

/-- C6: in `Chain.map`, when `ref` is `None` the reference defaults by
method: for every method other than `"tajimasd"` the chain's own derived
sequence is the reference and the protein-alignment path
(`blast_sequences`) builds the index map; for `"tajimasd"` the first data
record `data[0]` is the genomic reference and the genome-alignment path
(`align_protein_to_dna`) builds the index map. -/
theorem chain_map_ref_default {V : Type}
    (match_fn : String → List (Nat × Nat))
    (nearby_fn : Nat → String → List (Nat × List Nat))
    (blast_fn : String → String → List (Nat × Nat) × Int)
    (apd : String → String → List (Nat × Codon))
    (map_function : MethodArg → List String → List Nat → List (Nat × RefVal) → V)
    (sequence : String) (data : List String) (method : String)
    (radius : Nat) (selector : String) :
    (method ≠ "tajimasd" →
      Except.map ChainMapResult.refUsed
        (Chain.map match_fn nearby_fn blast_fn apd map_function
          sequence data method none radius selector) = Except.ok sequence ∧
      Except.map ChainMapResult.pdbindexToRef
        (Chain.map match_fn nearby_fn blast_fn apd map_function
          sequence data method none radius selector) =
        Except.ok (((blast_fn sequence sequence).1).map
          (fun p => (p.1, RefVal.protein p.2)))) ∧
    (∀ (d : String) (t : List String), data = d :: t →
      Except.map ChainMapResult.refUsed
        (Chain.map match_fn nearby_fn blast_fn apd map_function
          sequence data "tajimasd" none radius selector) = Except.ok d ∧
      Except.map ChainMapResult.pdbindexToRef
        (Chain.map match_fn nearby_fn blast_fn apd map_function
          sequence data "tajimasd" none radius selector) =
        Except.ok ((apd sequence d).map (fun p => (p.1, RefVal.codon p.2)))) := by
  constructor
  · intro h
    constructor <;> simp [Chain.map, h, Except.map]
  · intro d t hd
    subst hd
    constructor <;> simp [Chain.map, Except.map]

theorem chain_map_ref_default_witness :
    Except.map ChainMapResult.refUsed
      (Chain.map (V := Int) (fun _ => []) (fun _ _ => [(1, [1])])
        (fun _ _ => ([(1, 4)], 0)) (fun _ _ => []) (fun _ _ _ _ => 0)
        "MK" ["ATG"] "default" none 15 "all") = Except.ok "MK" ∧
    Except.map ChainMapResult.refUsed
      (Chain.map (V := Int) (fun _ => []) (fun _ _ => [(1, [1])])
        (fun _ _ => ([(1, 4)], 0)) (fun _ _ => []) (fun _ _ _ _ => 0)
        "MK" ["ATG"] "tajimasd" none 15 "all") = Except.ok "ATG" := by
  have h := chain_map_ref_default (V := Int) (fun _ => []) (fun _ _ => [(1, [1])])
    (fun _ _ => ([(1, 4)], 0)) (fun _ _ => []) (fun _ _ _ _ => 0)
    "MK" ["ATG"] "default" 15 "all"
  exact ⟨(h.1 (by decide)).1, (h.2 "ATG" [] rfl).1⟩

/-- C7 counterexample: residue 7 has no entry in the (here empty)
structure-number → reference composition, yet the result map produced by
`Chain.map` contains the key 7: residues missing from the composition are
*not* excluded from the result. -/
theorem chain_map_sparse_counterexample :
    Chain.map (V := Int) (fun _ => []) (fun _ _ => [(7, [7])])
      (fun _ _ => ([], 0)) (fun _ _ => []) (fun _ _ _ _ => 0)
      "MK" [] "default" (some "X") 15 "all" =
      Except.ok
        { refUsed := "X"
          pdbindexToRef := []
          pdbnumToRef := []
          methodArg := MethodArg.fn BuiltinFn.defaultMapping
          results := [(7, 0)]
          params := (15, "all") } ∧
    alookup (pdbnum_to_ref [] ([] : List (Nat × RefVal))) 7 = none := by
  constructor <;> rfl

/-- C7 (amended): the DataMap returned by `Chain.map` has exactly one
entry per residue of the neighbor map — a residue absent from the
structure-number → reference composition is *not* excluded; its value is
whatever the aggregation function computes from the partial reference
map. -/
theorem chain_map_results_keys {V : Type}
    (match_fn : String → List (Nat × Nat))
    (nearby_fn : Nat → String → List (Nat × List Nat))
    (blast_fn : String → String → List (Nat × Nat) × Int)
    (apd : String → String → List (Nat × Codon))
    (map_function : MethodArg → List String → List Nat → List (Nat × RefVal) → V)
    (sequence : String) (data : List String) (method : String)
    (ref : Option String) (radius : Nat) (selector : String)
    (res : ChainMapResult V)
    (h : Chain.map match_fn nearby_fn blast_fn apd map_function
      sequence data method ref radius selector = Except.ok res) :
    res.results.map Prod.fst = (nearby_fn radius selector).map Prod.fst := by
  rcases ref with _ | r
  · by_cases hm : method = "tajimasd"
    · subst hm
      rcases data with _ | ⟨d, t⟩
      · simp [Chain.map] at h
      · simp only [Chain.map] at h
        simp at h
        rw [← h]
        simp [List.map_map]
    · simp only [Chain.map] at h
      simp [hm] at h
      rw [← h]
      simp [List.map_map]
  · simp only [Chain.map] at h
    simp at h
    rw [← h]
    simp [List.map_map]

theorem chain_map_results_keys_witness :
    ([((7 : Nat), (0 : Int))].map Prod.fst) = ([(7, [7])].map Prod.fst) :=
  chain_map_results_keys (V := Int) (fun _ => []) (fun _ _ => [(7, [7])])
    (fun _ _ => ([], 0)) (fun _ _ => []) (fun _ _ _ _ => 0)
    "MK" [] "default" (some "X") 15 "all"
    { refUsed := "X"
      pdbindexToRef := []
      pdbnumToRef := []
      methodArg := MethodArg.fn BuiltinFn.defaultMapping
      results := [(7, 0)]
      params := (15, "all") } rfl

/-! ### C8 — iteration order (structmap.py 105-107 and 164-166)

`Structure.__iter__` is `for key in sorted(self.models): yield
self.models[key]`; `Model.__iter__` the same over `self.chains`.  Python's
`sorted` on dict keys is modelled with `insertionSort (· ≤ ·)`. -/

/-- The key order in which `Structure.__iter__` / `Model.__iter__` visit a
dict: its keys, sorted ascending. -/
def iterKeys {κ β : Type} [LinearOrder κ] (d : List (κ × β)) : List κ :=
  (d.map Prod.fst).insertionSort (· ≤ ·)

/-- `for key in sorted(d): yield d[key]`. -/
def dictIter {κ β : Type} [LinearOrder κ] [DecidableEq κ]
    (d : List (κ × β)) : List β :=
  (iterKeys d).filterMap (alookup d)

theorem filterMap_length_all_some {α β : Type} (f : α → Option β) :
    ∀ l : List α, (∀ a ∈ l, (f a).isSome) → (l.filterMap f).length = l.length := by
  intro l
  induction l with
  | nil => intro _; rfl
  | cons a t ih =>
      intro h
      rcases hf : f a with _ | b
      · have := h a (List.mem_cons_self _ _)
        rw [hf] at this
        simp at this
      · rw [List.filterMap_cons_some hf]
        simp only [List.length_cons]
        rw [ih (fun x hx => h x (List.mem_cons_of_mem _ hx))]

theorem dictIter_facts {κ β : Type} [LinearOrder κ] [DecidableEq κ]
    (d : List (κ × β)) (hnd : (d.map Prod.fst).Nodup) :
    List.Sorted (· < ·) (iterKeys d) ∧
    (iterKeys d).Perm (d.map Prod.fst) ∧
    (dictIter d).length = d.length := by
  have hperm : (iterKeys d).Perm (d.map Prod.fst) :=
    List.perm_insertionSort _ _
  have hsortedle : List.Sorted (· ≤ ·) (iterKeys d) :=
    List.sorted_insertionSort _ _
  have hnd' : (iterKeys d).Nodup := hperm.nodup_iff.mpr hnd
  refine ⟨hsortedle.lt_of_le hnd', hperm, ?_⟩
  have hall : ∀ k ∈ iterKeys d, (alookup d k).isSome := by
    intro k hk
    have hk' : k ∈ d.map Prod.fst := hperm.mem_iff.mp hk
    obtain ⟨p, hp, hpk⟩ := List.mem_map.mp hk'
    have := mem_alookup hnd (show (p.1, p.2) ∈ d from hp)
    rw [hpk] at this
    simp [this]
  rw [dictIter, filterMap_length_all_some _ _ hall, iterKeys,
    List.length_insertionSort, List.length_map]

/-- C8: iterating a `Structure` yields its models in ascending integer
model-id order, and iterating a `Model` yields its chains in sorted
chain-identifier order, regardless of insertion order: the visited key
sequence is strictly ascending, is a permutation of all stored keys, and
every visited key yields its stored entry. -/
theorem structure_model_iteration_sorted {M C : Type}
    (models : List (Int × M)) (chains : List (String × C))
    (hm : (models.map Prod.fst).Nodup) (hc : (chains.map Prod.fst).Nodup) :
    (List.Sorted (· < ·) (iterKeys models) ∧
     (iterKeys models).Perm (models.map Prod.fst) ∧
     (dictIter models).length = models.length) ∧
    (List.Sorted (· < ·) (iterKeys chains) ∧
     (iterKeys chains).Perm (chains.map Prod.fst) ∧
     (dictIter chains).length = chains.length) :=
  ⟨dictIter_facts models hm, dictIter_facts chains hc⟩

theorem structure_model_iteration_sorted_witness :
    (List.Sorted (· < ·) (iterKeys [((2 : Int), "m2"), (0, "m0"), (1, "m1")]) ∧
     (iterKeys [((2 : Int), "m2"), (0, "m0"), (1, "m1")]).Perm
       ([((2 : Int), "m2"), (0, "m0"), (1, "m1")].map Prod.fst) ∧
     (dictIter [((2 : Int), "m2"), (0, "m0"), (1, "m1")]).length = 3) ∧
    (List.Sorted (· < ·) (iterKeys [("B", 20), ("A", 10)]) ∧
     (iterKeys [("B", 20), ("A", 10)]).Perm
       ([("B", 20), ("A", 10)].map Prod.fst) ∧
     (dictIter [("B", 20), ("A", 10)]).length = 2) :=
  structure_model_iteration_sorted
    [((2 : Int), "m2"), (0, "m0"), (1, "m1")] [("B", 20), ("A", 10)]
    (by decide) (by simp)

/-! ### C9 — `Chain.__init__` sequence derivation (structmap.py 188-194) -/

/-- The sequence-derivation step of `Chain.__init__`: try the owning
Structure's header-parsed `sequences` table, and on KeyError reconstruct
from the atom records (`pdbtools.get_pdb_seq_from_atom`, external — its
result is the parameter) and store the reconstruction back into the
table.  Returns (sequence, updated table, whether reconstruction ran). -/
def Chain.initSequence (get_pdb_seq_from_atom : String)
    (sequences : List (String × String)) (chain_id : String) :
    String × List (String × String) × Bool :=
  match alookup sequences chain_id with
  | some s => (s, sequences, false)
  | none =>
      (get_pdb_seq_from_atom,
       dictInsert sequences chain_id get_pdb_seq_from_atom, true)

/-- C9: on Chain construction the derived sequence comes from the
Structure's header sequences when present (no reconstruction, table
unchanged); otherwise it is reconstructed from the atom records and
stored back under the chain id, so that any subsequent construction for
the same chain id finds it without reconstructing again. -/
theorem chain_init_sequence_cached (sequences : List (String × String))
    (chain_id : String) (fromAtoms : String) :
    (∀ s, alookup sequences chain_id = some s →
      Chain.initSequence fromAtoms sequences chain_id = (s, sequences, false)) ∧
    (alookup sequences chain_id = none →
      (Chain.initSequence fromAtoms sequences chain_id).1 = fromAtoms ∧
      (Chain.initSequence fromAtoms sequences chain_id).2.2 = true ∧
      alookup (Chain.initSequence fromAtoms sequences chain_id).2.1 chain_id =
        some fromAtoms ∧
      (∀ fromAtoms2,
        Chain.initSequence fromAtoms2
          (Chain.initSequence fromAtoms sequences chain_id).2.1 chain_id =
          (fromAtoms,
           (Chain.initSequence fromAtoms sequences chain_id).2.1, false))) := by
  constructor
  · intro s h
    simp [Chain.initSequence, h]
  · intro h
    have hlook : alookup (dictInsert sequences chain_id fromAtoms) chain_id =
        some fromAtoms := by
      rw [alookup_dictInsert]
      simp
    refine ⟨by simp [Chain.initSequence, h], by simp [Chain.initSequence, h],
      by simp [Chain.initSequence, h, hlook], ?_⟩
    intro fromAtoms2
    simp [Chain.initSequence, h, hlook]

theorem chain_init_sequence_cached_witness :
    Chain.initSequence "GG" [("A", "MK")] "A" = ("MK", [("A", "MK")], false) ∧
    (Chain.initSequence "GG" [("A", "MK")] "B").1 = "GG" ∧
    (Chain.initSequence "GG" [("A", "MK")] "B").2.2 = true ∧
    alookup (Chain.initSequence "GG" [("A", "MK")] "B").2.1 "B" = some "GG" ∧
    Chain.initSequence "HH" (Chain.initSequence "GG" [("A", "MK")] "B").2.1 "B" =
      ("GG", (Chain.initSequence "GG" [("A", "MK")] "B").2.1, false) := by
  have h := chain_init_sequence_cached [("A", "MK")] "B" "GG"
  have h2 := h.2 (by rfl)
  exact ⟨(chain_init_sequence_cached [("A", "MK")] "A" "GG").1 "MK" rfl,
    h2.1, h2.2.1, h2.2.2.1, h2.2.2.2 "HH"⟩

/-! ### C10 — `DataMap.write_data_to_pdb_b_factor` (structmap.py 68-82)

The method deep-copies the chain (`_chain = deepcopy(self.chain)`), burns
the DataMap values into the *copy's* per-atom B-factor fields (missing
residues get `default_no_value`), writes the copy to a file (I/O, out of
scope) and returns `None`.  The embedding returns the written chain, the
live chain after the call, the DataMap after the call, and the return
value. -/

structure Atom : Type where
  serial : Nat
  bfactor : Int
  deriving DecidableEq

structure Residue : Type where
  rid : Int
  atoms : List Atom
  deriving DecidableEq

/-- The mutation loop (structmap.py 73-76) applied to a chain value. -/
def setBFactors (dm : List (Int × Int)) (default_no_value : Int)
    (chain : List Residue) : List Residue :=
  chain.map (fun r =>
    { r with atoms := r.atoms.map (fun a =>
        { a with bfactor := (alookup dm r.rid).getD default_no_value }) })

/-- `DataMap.write_data_to_pdb_b_factor`: output is built on a deep copy;
the live chain and the DataMap flow through unchanged and the method
returns `None`. -/
def DataMap.write_data_to_pdb_b_factor (dm : List (Int × Int))
    (default_no_value : Int) (chain : List Residue) :
    List Residue × List Residue × List (Int × Int) × Option Unit :=
  let copy := chain
  let written := setBFactors dm default_no_value copy
  (written, chain, dm, none)

/-- C10: `write_data_to_pdb_b_factor` mutates B-factors only on a deep
copy: after the call the live chain (every atom's B-factor included) and
the DataMap are exactly as before, the return value is `None`, and the
written copy carries, for every atom of each residue, the DataMap value
of that residue's id (or the default where missing). -/
theorem write_b_factor_frame (dm : List (Int × Int))
    (default_no_value : Int) (chain : List Residue) :
    (DataMap.write_data_to_pdb_b_factor dm default_no_value chain).2.1 = chain ∧
    (DataMap.write_data_to_pdb_b_factor dm default_no_value chain).2.2.1 = dm ∧
    (DataMap.write_data_to_pdb_b_factor dm default_no_value chain).2.2.2 = none ∧
    (DataMap.write_data_to_pdb_b_factor dm default_no_value chain).1.map
        (fun r => (r.rid, r.atoms.map Atom.bfactor)) =
      chain.map (fun r =>
        (r.rid, r.atoms.map
          (fun _ => (alookup dm r.rid).getD default_no_value))) := by
  refine ⟨rfl, rfl, rfl, ?_⟩
  simp [DataMap.write_data_to_pdb_b_factor, setBFactors, List.map_map,
    Function.comp]
  intro a _
  simp [Function.comp_def]

end Structmap
